import Mathlib

/-!
Shallow embedding of `src/app.py` (a Docker container monitoring dashboard):
the stat normalizer (`calculate_cpu_percent`), byte formatting
(`format_bytes`), the per-container fetch (`get_container_stats`), the
parallel collection step, and the per-cycle history update loop.

Machine floats of the source are modelled by exact rationals (`ℚ`); dict
keys read with `.get(k, default)` are modelled as `Option` fields with
`Option.getD`; code paths that raise an exception caught by the blanket
`except` of `get_container_stats` are modelled as `none`.
-/

/-- The `cpu_usage` / `precpu_usage` sub-dictionary of a Docker stats
payload; `none` models an absent key (the code reads these with
`.get(..., default)`). -/
structure CpuUsage where
  total_usage : Option ℚ
  percpu_usage : Option (List ℚ)
deriving DecidableEq, Repr

/-- The `cpu_stats` / `precpu_stats` sub-dictionary. -/
structure CpuStats where
  cpu_usage : Option CpuUsage
  system_cpu_usage : Option ℚ
  online_cpus : Option ℕ
deriving DecidableEq, Repr

/-- The `memory_stats` sub-dictionary. The code indexes `usage` and
`limit` directly (no `.get`), so an absent key raises and the whole
sample is dropped by the blanket handler. -/
structure MemoryStats where
  usage : Option ℕ
  limit : Option ℕ
deriving DecidableEq, Repr

/-- One raw Docker stats payload, as returned by
`container.stats(stream=False)` (it embeds the previous reading in
`precpu_stats`). -/
structure RawStats where
  cpu_stats : Option CpuStats
  precpu_stats : Option CpuStats
  memory_stats : Option MemoryStats
deriving DecidableEq, Repr

/-- The empty dictionary default of `d.get("...", {})`. -/
def emptyCpuUsage : CpuUsage := ⟨none, none⟩

/-- The empty dictionary default of `d.get("...", {})`. -/
def emptyCpuStats : CpuStats := ⟨none, none, none⟩

/-- `d.get("cpu_stats", {})` (app.py line 26/35/43). -/
def rawCpuStats (d : RawStats) : CpuStats := d.cpu_stats.getD emptyCpuStats

/-- `d.get("precpu_stats", {})` (app.py line 27/44). -/
def rawPreCpuStats (d : RawStats) : CpuStats := d.precpu_stats.getD emptyCpuStats

/-- `d.get("cpu_stats", {}).get("cpu_usage", {})` (app.py line 26). -/
def rawCpuUsage (d : RawStats) : CpuUsage := (rawCpuStats d).cpu_usage.getD emptyCpuUsage

/-- `d.get("precpu_stats", {}).get("cpu_usage", {})` (app.py line 27). -/
def rawPreCpuUsage (d : RawStats) : CpuUsage :=
  (rawPreCpuStats d).cpu_usage.getD emptyCpuUsage

/-- `cpu_usage.get("percpu_usage", [])` (app.py line 30). -/
def percpuOf (d : RawStats) : List ℚ := (rawCpuUsage d).percpu_usage.getD []

/-- CPU count resolution (app.py lines 30-35): length of the per-core
array when non-empty, else `cpu_stats.get("online_cpus", 1)`. -/
def cpuCountOf (d : RawStats) : ℕ :=
  if percpuOf d ≠ [] then (percpuOf d).length
  else (rawCpuStats d).online_cpus.getD 1

/-- `cpu_delta = cpu_total - precpu_total` (app.py lines 40-46). -/
def cpuDelta (d : RawStats) : ℚ :=
  (rawCpuUsage d).total_usage.getD 0 - (rawPreCpuUsage d).total_usage.getD 0

/-- `system_delta = system_cpu - presystem_cpu` (app.py lines 43-47). -/
def systemDelta (d : RawStats) : ℚ :=
  (rawCpuStats d).system_cpu_usage.getD 0 - (rawPreCpuStats d).system_cpu_usage.getD 0

/-- `calculate_cpu_percent` (app.py lines 23-52), on exact rationals. -/
def calculate_cpu_percent (d : RawStats) : ℚ :=
  if systemDelta d > 0 ∧ cpuDelta d > 0
  then (cpuDelta d / systemDelta d) * (cpuCountOf d : ℚ) * 100
  else 0

/-- Two-decimal rendering of a rational, modelling `f"{x:.2f}"`; exact
whenever the value is an exact multiple of one hundredth (which is the
case in every claim about formatting). -/
def formatF2 (q : ℚ) : String :=
  let c : ℤ := round (q * 100)
  toString (c / 100) ++ "." ++
    (if c % 100 < 10 then "0" ++ toString (c % 100) else toString (c % 100))

/-- The `power_labels` dictionary lookup (app.py line 58); `none` models
a `KeyError` for an index outside `0..4`. -/
def power_labels (n : ℕ) : Option String := [("" : String), "K", "M", "G", "T"][n]?

/-- The `while size > power: size /= power; n += 1` loop of
`format_bytes` (app.py lines 59-61). -/
def fb_loop (size : ℚ) (n : ℕ) : ℚ × ℕ :=
  if h : size > 1024 then fb_loop (size / 1024) (n + 1) else (size, n)
termination_by (⌈size⌉₊ : ℕ)
decreasing_by
  have h0 : (0 : ℚ) < size := lt_trans (by norm_num) h
  have h2 : ((⌈size / 1024⌉₊ : ℕ) : ℚ) < size := by
    have hc := Nat.ceil_lt_add_one (a := size / 1024) (div_nonneg h0.le (by norm_num))
    linarith
  exact Nat.lt_ceil.mpr h2

/-- `format_bytes` (app.py lines 54-62); `none` models the `KeyError`
raised when the unit index leaves the five-entry label table. -/
def format_bytes (size : ℚ) : Option String :=
  (power_labels (fb_loop size 0).2).map
    (fun lab => formatF2 (fb_loop size 0).1 ++ " " ++ lab ++ "B")

/-- One container as the dashboard sees it. `stats` is the outcome of
`container.stats(stream=False)` (`none` when the call raises), and `now`
stands for the `datetime.now()` value taken while building the sample. -/
structure Container where
  short_id : String
  status : String
  stats : Option RawStats
  now : ℕ
deriving DecidableEq, Repr

/-- The record built by `get_container_stats` (app.py lines 78-84). -/
structure NormalizedSample where
  id : String
  cpu : ℚ
  memory_mb : ℚ
  memory_percent : ℚ
  timestamp : ℕ
deriving DecidableEq, Repr

/-- `get_container_stats` (app.py lines 64-86). Any raised exception —
a failed stats call, a missing memory key, or the `ZeroDivisionError`
from a zero memory limit — is swallowed by the blanket handler, which
returns `None`. -/
def get_container_stats (c : Container) : Option NormalizedSample :=
  if c.status ≠ "running" then none
  else match c.stats with
    | none => none
    | some stats =>
      match stats.memory_stats with
      | none => none
      | some ms =>
        match ms.usage, ms.limit with
        | some mem_usage, some mem_limit =>
          if mem_limit = 0 then none
          else some
            { id := c.short_id
              cpu := calculate_cpu_percent stats
              memory_mb := (mem_usage : ℚ) / (1024 * 1024)
              memory_percent := ((mem_usage : ℚ) / (mem_limit : ℚ)) * 100
              timestamp := c.now }
        | _, _ => none

/-- `executor.map(get_container_stats, running_containers)` (app.py
lines 117-118): the thread-pool map preserves input order and collects
one outcome per container. -/
def collect (cs : List Container) : List (Option NormalizedSample) :=
  cs.map get_container_stats

/-- The successful entries of one collection cycle (the `if res:`
filter of the update loop). -/
def collectResults (cs : List Container) : List NormalizedSample :=
  (collect cs).filterMap id

/-- One container's history: three parallel lists (app.py line 99/125). -/
structure Series where
  cpu : List ℚ
  memory : List ℚ
  timestamps : List ℕ
deriving DecidableEq, Repr

/-- `{'cpu': [], 'memory': [], 'timestamps': []}` (app.py line 125). -/
def emptySeries : Series := ⟨[], [], []⟩

/-- Python's `l[-w:]` slice, including the `w = 0` quirk where `l[-0:]`
is the whole list. -/
def pyTail (w : ℕ) (l : List α) : List α :=
  if w = 0 then l else l.drop (l.length - w)

/-- The last `w` entries of a list — what `l[-w:]` keeps when `w ≥ 1`. -/
def lastWindow (w : ℕ) (l : List α) : List α := l.drop (l.length - w)

/-- One iteration of the history-update loop for a successful sample
(app.py lines 127-136): append to the three lists, then, when the cpu
list grew past the window, trim each list with `[-history_window:]`. -/
def appendSample (W : ℕ) (h : Series) (res : NormalizedSample) : Series :=
  if (h.cpu ++ [res.cpu]).length > W then
    ⟨pyTail W (h.cpu ++ [res.cpu]), pyTail W (h.memory ++ [res.memory_mb]),
      pyTail W (h.timestamps ++ [res.timestamp])⟩
  else ⟨h.cpu ++ [res.cpu], h.memory ++ [res.memory_mb], h.timestamps ++ [res.timestamp]⟩

/-- `st.session_state.history`: container id to series. -/
abbrev HistMap : Type := String → Option Series

/-- Appending a whole run of samples for one container. -/
def appendMany (W : ℕ) (s : Series) (xs : List NormalizedSample) : Series :=
  xs.foldl (appendSample W) s

/-- The history-update loop over one cycle's results (app.py lines
121-136): `None` results are skipped; a successful one is appended to
its container's series (created empty if unseen) and trimmed. -/
def updateHistory (W : ℕ) (hist : HistMap) (results : List (Option NormalizedSample)) :
    HistMap :=
  results.foldl
    (fun h r =>
      match r with
      | none => h
      | some res =>
        fun cid =>
          if cid = res.id then some (appendSample W ((h res.id).getD emptySeries) res)
          else h cid)
    hist

/-- `st.session_state.history = {}` ("Clear History", app.py line 107). -/
def clearHistory : HistMap := fun _ => none

/-- The three parallel lists of a series agree in length. -/
def balanced (s : Series) : Prop :=
  s.memory.length = s.cpu.length ∧ s.timestamps.length = s.cpu.length

example : calculate_cpu_percent ⟨some ⟨some ⟨some 30, none⟩, some 110, some 2⟩,
    some ⟨some ⟨some 10, none⟩, some 100, none⟩, none⟩ = 400 := by
  norm_num [calculate_cpu_percent, systemDelta, cpuDelta, cpuCountOf, percpuOf,
    rawCpuStats, rawPreCpuStats, rawCpuUsage, rawPreCpuUsage, emptyCpuStats, emptyCpuUsage]

/-! ## Helper lemmas about window trimming -/

lemma lastWindow_length (w : ℕ) (l : List α) :
    (lastWindow w l).length = min l.length w := by
  simp only [lastWindow, List.length_drop]
  omega

lemma lastWindow_of_le (w : ℕ) (l : List α) (h : l.length ≤ w) :
    lastWindow w l = l := by
  simp [lastWindow, Nat.sub_eq_zero_of_le h]

lemma pyTail_eq_lastWindow (w : ℕ) (l : List α) (hw : 1 ≤ w) :
    pyTail w l = lastWindow w l := by
  unfold pyTail lastWindow
  rw [if_neg (by omega)]

lemma lastWindow_snoc (w : ℕ) (l : List α) (x : α) :
    lastWindow w (lastWindow w l ++ [x]) = lastWindow w (l ++ [x]) := by
  rcases le_or_lt l.length w with h | h
  · rw [lastWindow_of_le w l h]
  · rcases Nat.eq_zero_or_pos w with hw | hw
    · subst hw
      have h1 : lastWindow 0 l ++ [x] = [x] := by
        simp [lastWindow, List.drop_eq_nil_iff]
      rw [h1]
      simp [lastWindow, List.drop_eq_nil_iff]
    · have hlen : (List.drop (l.length - w) l).length = w := by
        rw [List.length_drop]; omega
      unfold lastWindow
      rw [List.length_append, hlen, List.length_singleton,
        List.length_append, List.length_singleton]
      have e1 : w + 1 - w = 1 := by omega
      rw [e1]
      rw [List.drop_append_of_le_length (by rw [hlen]; omega)]
      rw [List.drop_append_of_le_length (by omega : l.length + 1 - w ≤ l.length)]
      rw [List.drop_drop]
      have e2 : l.length - w + 1 = l.length + 1 - w := by omega
      rw [e2]

lemma appendSample_eq (W : ℕ) (hW : 1 ≤ W) (s : Series) (x : NormalizedSample)
    (hb : balanced s) :
    appendSample W s x =
      ⟨lastWindow W (s.cpu ++ [x.cpu]), lastWindow W (s.memory ++ [x.memory_mb]),
        lastWindow W (s.timestamps ++ [x.timestamp])⟩ := by
  obtain ⟨hm, ht⟩ := hb
  unfold appendSample
  by_cases h : (s.cpu ++ [x.cpu]).length > W
  · rw [if_pos h, pyTail_eq_lastWindow _ _ hW, pyTail_eq_lastWindow _ _ hW,
      pyTail_eq_lastWindow _ _ hW]
  · rw [if_neg h]
    rw [List.length_append, List.length_singleton] at h
    simp only [Series.mk.injEq]
    refine ⟨?_, ?_, ?_⟩ <;>
      · rw [lastWindow_of_le]
        simp only [List.length_append, List.length_singleton]
        omega

lemma balanced_appendSample (W : ℕ) (s : Series) (x : NormalizedSample)
    (hb : balanced s) : balanced (appendSample W s x) := by
  obtain ⟨hm, ht⟩ := hb
  unfold appendSample
  split
  · unfold balanced pyTail
    split_ifs <;> constructor <;> simp <;> omega
  · constructor <;> simp [hm, ht]

lemma appendMany_eq (W : ℕ) (hW : 1 ≤ W) (xs : List NormalizedSample) :
    appendMany W emptySeries xs =
      ⟨lastWindow W (xs.map (fun r => r.cpu)),
        lastWindow W (xs.map (fun r => r.memory_mb)),
        lastWindow W (xs.map (fun r => r.timestamp))⟩ := by
  induction xs using List.reverseRecOn with
  | nil => simp [appendMany, emptySeries, lastWindow]
  | append_singleton xs x ih =>
    have hfold : appendMany W emptySeries (xs ++ [x]) =
        appendSample W (appendMany W emptySeries xs) x := by
      unfold appendMany
      rw [List.foldl_append, List.foldl_cons, List.foldl_nil]
    rw [hfold, ih]
    rw [appendSample_eq W hW _ x
      (by constructor <;> simp [lastWindow_length])]
    simp only [List.map_append, List.map_cons, List.map_nil]
    simp only [Series.mk.injEq]
    exact ⟨lastWindow_snoc .., lastWindow_snoc .., lastWindow_snoc ..⟩

/-! ## Helper lemmas about the byte-formatting loop -/

lemma fb_loop_of_le {size : ℚ} (n : ℕ) (h : size ≤ 1024) : fb_loop size n = (size, n) := by
  rw [fb_loop, dif_neg (by exact not_lt.mpr h)]

lemma fb_loop_1023 : fb_loop 1023 0 = (1023, 0) := fb_loop_of_le 0 (by norm_num)

lemma fb_loop_1536 : fb_loop 1536 0 = (3 / 2, 1) := by
  rw [fb_loop, dif_pos (by norm_num)]
  have e : (1536 : ℚ) / 1024 = 3 / 2 := by norm_num
  rw [e, fb_loop_of_le 1 (by norm_num)]

lemma fb_loop_1048576 : fb_loop 1048576 0 = (1024, 1) := by
  rw [fb_loop, dif_pos (by norm_num)]
  have e : (1048576 : ℚ) / 1024 = 1024 := by norm_num
  rw [e, fb_loop_of_le 1 (by norm_num)]

/-- Each pass of the loop divides by 1024, so a value at most `1024^(k+1)`
is resolved within `k` passes. -/
lemma fb_loop_count_le (k : ℕ) : ∀ (size : ℚ) (n : ℕ),
    size ≤ 1024 ^ (k + 1) → (fb_loop size n).2 ≤ n + k := by
  induction k with
  | zero =>
    intro size n h
    rw [fb_loop_of_le n (by simpa using h)]
    omega
  | succ k ih =>
    intro size n h
    by_cases hgt : size > 1024
    · rw [fb_loop, dif_pos hgt]
      have hstep : size / 1024 ≤ 1024 ^ (k + 1) := by
        rw [div_le_iff₀ (by norm_num : (0 : ℚ) < 1024)]
        calc size ≤ 1024 ^ (k + 1 + 1) := h
          _ = 1024 ^ (k + 1) * 1024 := by ring
      calc (fb_loop (size / 1024) (n + 1)).2 ≤ (n + 1) + k := ih (size / 1024) (n + 1) hstep
        _ = n + (k + 1) := by omega
    · rw [fb_loop, dif_neg hgt]
      omega

/-- With every pass the counter grows by one, starting from `n`. -/
lemma fb_loop_pow (k : ℕ) : ∀ n : ℕ, fb_loop ((1024 : ℚ) ^ (k + 1)) n = (1024, n + k) := by
  induction k with
  | zero => intro n; rw [pow_one, fb_loop_of_le n le_rfl, Nat.add_zero]
  | succ k ih =>
    intro n
    rw [fb_loop, dif_pos (by
      calc (1024 : ℚ) = 1024 ^ 1 := (pow_one _).symm
        _ < 1024 ^ (k + 1 + 1) := pow_lt_pow_right₀ (by norm_num) (by omega))]
    have e : (1024 : ℚ) ^ (k + 1 + 1) / 1024 = 1024 ^ (k + 1) := by
      rw [pow_succ]
      field_simp
    rw [e, ih (n + 1)]
    simp only [Prod.mk.injEq, true_and]
    omega

lemma power_labels_isSome {n : ℕ} (h : n ≤ 4) : (power_labels n).isSome = true := by
  interval_cases n <;> rfl

lemma isSome_map (f : α → β) (o : Option α) : (o.map f).isSome = o.isSome := by
  cases o <;> rfl

lemma formatF2_eval (q : ℚ) (c : ℤ) (h : round (q * 100) = c) :
    formatF2 q = toString (c / 100) ++ "." ++
      (if c % 100 < 10 then "0" ++ toString (c % 100) else toString (c % 100)) := by
  simp only [formatF2]
  rw [h]

lemma get_container_stats_id {c : Container} {s : NormalizedSample}
    (h : get_container_stats c = some s) : s.id = c.short_id := by
  unfold get_container_stats at h
  split at h
  · exact absurd h (by simp)
  · split at h
    · exact absurd h (by simp)
    · split at h
      · exact absurd h (by simp)
      · split at h
        · split at h
          · exact absurd h (by simp)
          · rw [Option.some.injEq] at h
            rw [← h]
        · exact absurd h (by simp)

/-! ## Claim theorems -/

/-- C1: `calculate_cpu_percent` returns
`(cpu_delta / system_delta) * cpu_count * 100` exactly when both
`cpu_delta` and `system_delta` are strictly positive and `0.0`
otherwise, and is never negative; no division by zero can occur since
the guarded branch requires `system_delta > 0`. Determinism is inherent:
the embedding is a pure function of the snapshot pair. -/
theorem calculate_cpu_percent_characterization :
    ∀ d : RawStats,
      calculate_cpu_percent d =
        (if 0 < cpuDelta d ∧ 0 < systemDelta d
          then cpuDelta d / systemDelta d * (cpuCountOf d : ℚ) * 100 else 0) ∧
      0 ≤ calculate_cpu_percent d := by
  intro d
  constructor
  · unfold calculate_cpu_percent
    by_cases h1 : 0 < systemDelta d <;> by_cases h2 : 0 < cpuDelta d <;>
      simp [gt_iff_lt, h1, h2]
  · unfold calculate_cpu_percent
    split
    · next hpos =>
      exact mul_nonneg
        (mul_nonneg (div_nonneg hpos.2.le hpos.1.le) (Nat.cast_nonneg _))
        (by norm_num)
    · exact le_refl 0

/-- C9: the CPU count used in normalization is the length of the
per-core usage array when that array is present and non-empty; otherwise
the runtime-reported `online_cpus` value; otherwise `1`. -/
theorem cpu_count_resolution :
    ∀ d : RawStats,
      (∀ l : List ℚ, (rawCpuUsage d).percpu_usage = some l → l ≠ [] →
        cpuCountOf d = l.length) ∧
      ((rawCpuUsage d).percpu_usage = none ∨ (rawCpuUsage d).percpu_usage = some [] →
        (∀ n : ℕ, (rawCpuStats d).online_cpus = some n → cpuCountOf d = n) ∧
        ((rawCpuStats d).online_cpus = none → cpuCountOf d = 1)) := by
  intro d
  constructor
  · intro l hl hne
    unfold cpuCountOf percpuOf
    rw [hl]
    simp [hne]
  · intro hl
    constructor
    · intro n hn
      unfold cpuCountOf percpuOf
      rcases hl with h | h <;> rw [h] <;> simp [hn]
    · intro hn
      unfold cpuCountOf percpuOf
      rcases hl with h | h <;> rw [h] <;> simp [hn]

/-- A snapshot with a two-entry per-core array; witness input for C9. -/
def cpuCountExample : RawStats :=
  ⟨some ⟨some ⟨some 7, some [1, 2]⟩, some 50, some 8⟩, none, none⟩

/-- Witness for C9: on `cpuCountExample` the per-core array is present
and non-empty and its length `2` is the resolved CPU count. -/
theorem cpu_count_resolution_witness :
    ((rawCpuUsage cpuCountExample).percpu_usage = some [(1 : ℚ), 2] ∧
      ([(1 : ℚ), 2] : List ℚ) ≠ []) ∧
      cpuCountOf cpuCountExample = ([(1 : ℚ), 2] : List ℚ).length :=
  ⟨⟨rfl, by decide⟩, (cpu_count_resolution cpuCountExample).1 [1, 2] rfl (by decide)⟩

/-- A running container whose snapshot reports a zero memory limit;
counterexample input for C2. -/
def zeroLimitContainer : Container :=
  ⟨"c0", "running", some ⟨none, none, some ⟨some 100, some 0⟩⟩, 0⟩

/-- C2 counterexample: with `memory_limit == 0` the code does NOT report
a sample with `memory_percent = 0.0`; the division raises
`ZeroDivisionError`, the blanket handler returns `None`, and the whole
sample is dropped. -/
theorem memory_zero_limit_counterexample :
    (get_container_stats zeroLimitContainer).map (fun s => s.memory_percent) ≠ some 0 ∧
      get_container_stats zeroLimitContainer = none := by
  constructor
  · intro h
    rw [show get_container_stats zeroLimitContainer = none from rfl] at h
    exact Option.noConfusion h
  · rfl

/-- C2 amended: for a running container with a delivered snapshot whose
memory dict has both keys, a zero limit makes `get_container_stats`
return `None` (the sample is dropped, no `memory_percent` is reported);
a non-zero limit yields exactly `usage / limit * 100`. -/
theorem get_container_stats_memory_spec :
    ∀ (c : Container) (stats : RawStats) (ms : MemoryStats) (mu ml : ℕ),
      c.status = "running" → c.stats = some stats → stats.memory_stats = some ms →
      ms.usage = some mu → ms.limit = some ml →
      get_container_stats c =
        if ml = 0 then none
        else some
          { id := c.short_id
            cpu := calculate_cpu_percent stats
            memory_mb := (mu : ℚ) / (1024 * 1024)
            memory_percent := ((mu : ℚ) / (ml : ℚ)) * 100
            timestamp := c.now } := by
  intro c stats ms mu ml h1 h2 h3 h4 h5
  simp only [get_container_stats, h1, h2, h3, h4, h5, ne_eq, not_true_eq_false,
    if_false]

/-- A running container with usage 50 of limit 200; witness input for C2. -/
def memExContainer : Container :=
  ⟨"m0", "running", some ⟨none, none, some ⟨some 50, some 200⟩⟩, 7⟩

/-- Witness for C2 amended, at `memExContainer` (limit `200 ≠ 0`,
so the sample is present with `memory_percent = 50 / 200 * 100 = 25`). -/
theorem get_container_stats_memory_spec_witness :
    (memExContainer.status = "running" ∧
      memExContainer.stats = some ⟨none, none, some ⟨some 50, some 200⟩⟩ ∧
      (⟨none, none, some ⟨some 50, some 200⟩⟩ : RawStats).memory_stats =
        some ⟨some 50, some 200⟩ ∧
      (⟨some 50, some 200⟩ : MemoryStats).usage = some 50 ∧
      (⟨some 50, some 200⟩ : MemoryStats).limit = some 200) ∧
    get_container_stats memExContainer =
      (if (200 : ℕ) = 0 then none
        else some
          { id := memExContainer.short_id
            cpu := calculate_cpu_percent ⟨none, none, some ⟨some 50, some 200⟩⟩
            memory_mb := ((50 : ℕ) : ℚ) / (1024 * 1024)
            memory_percent := (((50 : ℕ) : ℚ) / ((200 : ℕ) : ℚ)) * 100
            timestamp := memExContainer.now }) :=
  ⟨⟨rfl, rfl, rfl, rfl, rfl⟩,
    get_container_stats_memory_spec memExContainer ⟨none, none, some ⟨some 50, some 200⟩⟩
      ⟨some 50, some 200⟩ 50 200 rfl rfl rfl rfl rfl⟩

/-- C7: one collection cycle yields exactly the samples of the
containers whose fetch succeeded, in order; a failed fetch contributes
nothing and never removes or reorders the succeeding containers'
entries, and each surviving sample carries its own container's id. -/
theorem collect_ids_exact :
    ∀ cs : List Container,
      (collectResults cs).map (fun s => s.id) =
        (cs.filter (fun c => (get_container_stats c).isSome)).map
          (fun c => c.short_id) := by
  intro cs
  induction cs with
  | nil => rfl
  | cons c cs ih =>
    cases h : get_container_stats c with
    | none =>
      simpa [collectResults, collect, List.filterMap_cons, List.filter_cons, h] using ih
    | some s =>
      have hid : s.id = c.short_id := get_container_stats_id h
      simpa [collectResults, collect, List.filterMap_cons, List.filter_cons, h, hid] using ih

/-- C3: after appending `N` samples into an empty series with window
`W ≥ 1` (the sidebar slider only produces `10 ≤ W ≤ 100`), each of the
three stored lists is exactly the most recent `min(N, W)` samples in
arrival order — trimming drops from the front — and the length is
exactly `min(N, W)`, never exceeding `W`. -/
theorem history_append_window_spec :
    ∀ W : ℕ, 1 ≤ W → ∀ xs : List NormalizedSample,
      (appendMany W emptySeries xs).cpu =
        lastWindow W (xs.map (fun r => r.cpu)) ∧
      (appendMany W emptySeries xs).memory =
        lastWindow W (xs.map (fun r => r.memory_mb)) ∧
      (appendMany W emptySeries xs).timestamps =
        lastWindow W (xs.map (fun r => r.timestamp)) ∧
      (appendMany W emptySeries xs).cpu.length = min xs.length W := by
  intro W hW xs
  rw [appendMany_eq W hW xs]
  refine ⟨rfl, rfl, rfl, ?_⟩
  rw [lastWindow_length, List.length_map]

/-- Three concrete samples for the C3 witness. -/
def sampleA : NormalizedSample := ⟨"a1", 10, 100, 5, 1⟩

/-- Second concrete sample for the C3 witness. -/
def sampleB : NormalizedSample := ⟨"a1", 20, 200, 10, 2⟩

/-- Third concrete sample for the C3 witness. -/
def sampleC : NormalizedSample := ⟨"a1", 30, 300, 15, 3⟩

/-- Witness for C3: appending three samples with window `2` keeps the
last two in order. -/
theorem history_append_window_spec_witness :
    1 ≤ 2 ∧
      ((appendMany 2 emptySeries [sampleA, sampleB, sampleC]).cpu =
        lastWindow 2 ([sampleA, sampleB, sampleC].map (fun r => r.cpu)) ∧
      (appendMany 2 emptySeries [sampleA, sampleB, sampleC]).memory =
        lastWindow 2 ([sampleA, sampleB, sampleC].map (fun r => r.memory_mb)) ∧
      (appendMany 2 emptySeries [sampleA, sampleB, sampleC]).timestamps =
        lastWindow 2 ([sampleA, sampleB, sampleC].map (fun r => r.timestamp)) ∧
      (appendMany 2 emptySeries [sampleA, sampleB, sampleC]).cpu.length =
        min ([sampleA, sampleB, sampleC] : List NormalizedSample).length 2) :=
  ⟨by decide, history_append_window_spec 2 (by decide) [sampleA, sampleB, sampleC]⟩

/-- C4 counterexample: `format_bytes 1048576` is NOT `"1.00 MB"` — the
loop guard is a strict `>`, so the value `1024.0` obtained after one
division does not roll over and the code prints `"1024.00 KB"`. -/
theorem format_bytes_megabyte_counterexample :
    format_bytes 1048576 ≠ some "1.00 MB" := by
  unfold format_bytes
  rw [fb_loop_1048576, formatF2_eval (1024 : ℚ) 102400 (by norm_num [round_eq])]
  decide

/-- C4 amended: `format_bytes` maps 1023 to `"1023.00 B"` and 1536 to
`"1.50 KB"` as claimed, but 1048576 to `"1024.00 KB"` (not `"1.00 MB"`):
the loop divides by 1024 only while the value strictly exceeds 1024,
labeling units `"", K, M, G, T`, so a value landing exactly on 1024
keeps the previous unit. -/
theorem format_bytes_examples :
    format_bytes 1023 = some "1023.00 B" ∧
      format_bytes 1536 = some "1.50 KB" ∧
      format_bytes 1048576 = some "1024.00 KB" := by
  refine ⟨?_, ?_, ?_⟩
  · unfold format_bytes
    rw [fb_loop_1023, formatF2_eval (1023 : ℚ) 102300 (by norm_num [round_eq])]
    rfl
  · unfold format_bytes
    rw [fb_loop_1536, formatF2_eval ((3 : ℚ) / 2) 150 (by norm_num [round_eq])]
    rfl
  · unfold format_bytes
    rw [fb_loop_1048576, formatF2_eval (1024 : ℚ) 102400 (by norm_num [round_eq])]
    rfl

/-- C5 counterexample: `format_bytes` is not total — at `1024^6` the
loop runs five times, the unit counter reaches `5`, and the
`power_labels` lookup fails (`KeyError` in the source), so no T-labeled
string is returned. -/
theorem format_bytes_overflow_counterexample :
    format_bytes ((1024 : ℚ) ^ 6) = none := by
  unfold format_bytes
  have h : fb_loop ((1024 : ℚ) ^ 6) 0 = (1024, 5) := fb_loop_pow 5 0
  rw [h]
  rfl

/-- C5 amended: the unit-label lookup stays in range only for inputs at
most `1024^5`: for any such value the function totally returns a
formatted string (unit index at most `T`); for larger inputs the unit
counter passes `T` and the label lookup fails, so the function is not
total on all inputs (see the counterexample at `1024^6`). -/
theorem format_bytes_total_upto_T :
    ∀ size : ℚ, size ≤ 1024 ^ 5 → (format_bytes size).isSome = true := by
  intro size h
  have h4 : (fb_loop size 0).2 ≤ 4 := by
    simpa using fb_loop_count_le 4 size 0 (by norm_num at h ⊢; exact h)
  unfold format_bytes
  rw [isSome_map]
  exact power_labels_isSome h4

/-- Witness for C5 amended, at input `5`. -/
theorem format_bytes_total_upto_T_witness :
    (5 : ℚ) ≤ 1024 ^ 5 ∧ (format_bytes 5).isSome = true :=
  ⟨by norm_num, format_bytes_total_upto_T 5 (by norm_num)⟩

/-- A populated three-sample series; input for C6. -/
def exSeries3 : Series := ⟨[1, 2, 3], [10, 20, 30], [100, 200, 300]⟩

/-- A history store holding `exSeries3` under id `"abc123"`. -/
def exHist : HistMap := fun cid => if cid = "abc123" then some exSeries3 else none

/-- One more sample for container `"abc123"`; input for C6. -/
def exSample : NormalizedSample := ⟨"abc123", 4, 40, 50, 400⟩

/-- C6 counterexample: shrinking the window to `1` does NOT trim the
stored three-entry series immediately — a full update cycle that
appends nothing for the container (empty results) leaves its length at
`3`, not `1`. The code trims only inside the append branch of the
update loop; there is no separate `SetWindow` trimming pass. -/
theorem setwindow_no_immediate_trim_counterexample :
    (updateHistory 1 exHist [] "abc123").map (fun s => s.cpu.length) = some 3 ∧
      (3 : ℕ) ≠ 1 := by
  constructor
  · rfl
  · decide

/-- C6 amended: changing the history window to `W'` by itself leaves
every stored series unchanged; an oversized series is only trimmed when
its next sample is appended, at which point the cycle's trim with the
new `W' ≥ 1` cuts it to the newest entries, making its length exactly
`min(previous length + 1, W')`. -/
theorem appendSample_trims_to_new_window :
    ∀ (W' : ℕ) (s : Series) (x : NormalizedSample), 1 ≤ W' → balanced s →
      appendSample W' s x =
        ⟨lastWindow W' (s.cpu ++ [x.cpu]), lastWindow W' (s.memory ++ [x.memory_mb]),
          lastWindow W' (s.timestamps ++ [x.timestamp])⟩ ∧
      (appendSample W' s x).cpu.length = min (s.cpu.length + 1) W' := by
  intro W' s x hW hb
  have he := appendSample_eq W' hW s x hb
  refine ⟨he, ?_⟩
  rw [he]
  show (lastWindow W' (s.cpu ++ [x.cpu])).length = _
  rw [lastWindow_length, List.length_append, List.length_singleton]

/-- Witness for C6 amended: appending to the three-entry `exSeries3`
under the shrunk window `1` trims it to a single newest entry. -/
theorem appendSample_trims_to_new_window_witness :
    (1 ≤ 1 ∧ balanced exSeries3) ∧
      (appendSample 1 exSeries3 exSample =
        ⟨lastWindow 1 (exSeries3.cpu ++ [exSample.cpu]),
          lastWindow 1 (exSeries3.memory ++ [exSample.memory_mb]),
          lastWindow 1 (exSeries3.timestamps ++ [exSample.timestamp])⟩ ∧
      (appendSample 1 exSeries3 exSample).cpu.length =
        min (exSeries3.cpu.length + 1) 1) :=
  ⟨⟨le_refl 1, ⟨rfl, rfl⟩⟩,
    appendSample_trims_to_new_window 1 exSeries3 exSample (le_refl 1) ⟨rfl, rfl⟩⟩

/-- C8: a failed fetch (`None` result) contributes nothing to the
history update — the cycle behaves exactly as if that container were
absent from the batch (so the other containers' series are updated
normally) — and a container with no successful result in the batch has
its stored series left completely unchanged (a gap, not a zero). -/
theorem failed_fetch_frame :
    (∀ (W : ℕ) (hist : HistMap) (rs rs' : List (Option NormalizedSample)),
      updateHistory W hist (rs ++ none :: rs') = updateHistory W hist (rs ++ rs')) ∧
    (∀ (W : ℕ) (hist : HistMap) (rs : List (Option NormalizedSample)) (cid : String),
      (∀ s : NormalizedSample, some s ∈ rs → s.id ≠ cid) →
      updateHistory W hist rs cid = hist cid) := by
  constructor
  · intro W hist rs rs'
    unfold updateHistory
    rw [List.foldl_append, List.foldl_append, List.foldl_cons]
  · intro W hist rs cid
    induction rs generalizing hist with
    | nil => intro _; rfl
    | cons r rs ih =>
      intro hno
      cases r with
      | none =>
        show updateHistory W hist rs cid = hist cid
        exact ih hist (fun s hs => hno s (List.mem_cons_of_mem _ hs))
      | some res =>
        have hne : res.id ≠ cid := hno res (List.mem_cons_self _ _)
        show updateHistory W
          (fun cid' => if cid' = res.id
            then some (appendSample W ((hist res.id).getD emptySeries) res)
            else hist cid') rs cid = hist cid
        rw [ih _ (fun s hs => hno s (List.mem_cons_of_mem _ hs))]
        exact if_neg (fun e => hne e.symm)

/-- Witness for C8: with a batch holding one failed fetch, the series of
an id absent from the batch is untouched. -/
theorem failed_fetch_frame_witness :
    (∀ s : NormalizedSample,
      some s ∈ ([none] : List (Option NormalizedSample)) → s.id ≠ "a") ∧
      updateHistory 1 clearHistory [none] "a" = clearHistory "a" :=
  ⟨fun s hs => absurd hs (by simp),
    failed_fetch_frame.2 1 clearHistory [none] "a" (fun s hs => absurd hs (by simp))⟩

/-- C10 (implicit invariant): the three parallel lists of every stored
series always have equal length — the empty series is balanced, a
cleared store holds no unbalanced series, and the per-cycle update
(appends and trims included) preserves balance of every series it
stores. -/
theorem history_parallel_lists_balanced :
    balanced emptySeries ∧
    (∀ (cid : String) (s : Series), clearHistory cid = some s → balanced s) ∧
    (∀ (W : ℕ) (hist : HistMap) (rs : List (Option NormalizedSample)),
      (∀ (cid : String) (s : Series), hist cid = some s → balanced s) →
      ∀ (cid : String) (s : Series), updateHistory W hist rs cid = some s →
        balanced s) := by
  refine ⟨⟨rfl, rfl⟩, ?_, ?_⟩
  · intro cid s h
    exact absurd h (by simp [clearHistory])
  · intro W hist rs
    induction rs generalizing hist with
    | nil => intro hb cid s h; exact hb cid s h
    | cons r rs ih =>
      intro hb cid s h
      cases r with
      | none => exact ih hist hb cid s h
      | some res =>
        refine ih _ ?_ cid s h
        intro cid' s' h'
        have h'' : (if cid' = res.id
            then some (appendSample W ((hist res.id).getD emptySeries) res)
            else hist cid') = some s' := h'
        by_cases he : cid' = res.id
        · rw [if_pos he] at h''
          rw [Option.some.injEq] at h''
          rw [← h'']
          refine balanced_appendSample W _ res ?_
          cases hg : hist res.id with
          | none => exact ⟨rfl, rfl⟩
          | some sOld => exact hb res.id sOld hg
        · rw [if_neg he] at h''
          exact hb cid' s' h''

/-- Witness for C10: updating an initially empty store with one
successful sample yields only balanced series. -/
theorem history_parallel_lists_balanced_witness :
    (∀ (cid : String) (s : Series), clearHistory cid = some s → balanced s) ∧
      (∀ (cid : String) (s : Series),
        updateHistory 2 clearHistory [some sampleA] cid = some s → balanced s) :=
  ⟨fun cid s h => absurd h (by simp [clearHistory]),
    history_parallel_lists_balanced.2.2 2 clearHistory [some sampleA]
      (fun cid s h => absurd h (by simp [clearHistory]))⟩
